import Mathlib

/-!
Shallow embedding of the Matrix ERP backend (Python/FastAPI) business logic,
together with proofs checking its natural-language specification.

Modelling conventions used throughout:
* Python floats are idealised as rationals (`ℚ`); `round(x, n)` is modelled by
  `round2`/`round3`/`round6` (round-half-up at `n` decimal places).
* Python strings are Lean `String`s; where byte-level structure matters
  (ZATCA TLV), a string is represented by its list of UTF-8 byte values.
* Parsed dates (`datetime.fromisoformat(...).date()`) are represented by their
  day ordinal as an `ℤ`; an unparsable date is `none : Option ℤ`.
* JSON-file persistence is modelled by explicit state passing: a function that
  reads and rewrites a JSON collection takes the collection as an argument and
  returns the new collection.
-/

namespace ERP

/-- `round(x, 2)` of the Python code, idealised over `ℚ`. -/
def round2 (q : ℚ) : ℚ := (round (q * 100) : ℚ) / 100

/-- `round(x, 3)` of the Python code, idealised over `ℚ`. -/
def round3 (q : ℚ) : ℚ := (round (q * 1000) : ℚ) / 1000

/-- `round(x, 6)` of the Python code, idealised over `ℚ`. -/
def round6 (q : ℚ) : ℚ := (round (q * 1000000) : ℚ) / 1000000

theorem round2_idem (q : ℚ) : round2 (round2 q) = round2 q := by
  unfold round2
  rw [div_mul_cancel₀ _ (by norm_num : (100:ℚ) ≠ 0), round_intCast]

theorem round2_zero : round2 0 = 0 := by
  unfold round2
  norm_num

/-! ## Inventory (`backend/modules/inventory.py`) -/

/-- A record of `stock_moves.json` as written by `record_move`.
`id`, `date` and `memo` are irrelevant to the claims and omitted. -/
structure Move where
  product : String
  quantity : ℚ
  unit_cost : ℚ
  mtype : String
  ref : String
  warehouse : String
  location : String
deriving DecidableEq, Repr

/-- `record_move`: appends one move record to the stock-moves collection. -/
def record_move (moves : List Move) (product : String) (quantity unit_cost : ℚ)
    (mtype ref warehouse location : String) : List Move :=
  moves ++ [⟨product, quantity, unit_cost, mtype, ref, warehouse, location⟩]

/-- One step of the aggregation loop in `compute_on_hand`: an `"in"` move adds
`qty`/`qty*cost`, an `"out"` move subtracts them, any other type is ignored. -/
def onHandStep (s : ℚ × ℚ) (m : Move) : ℚ × ℚ :=
  if m.mtype = "in" then (s.1 + m.quantity, s.2 + m.quantity * m.unit_cost)
  else if m.mtype = "out" then (s.1 - m.quantity, s.2 - m.quantity * m.unit_cost)
  else s

/-- The raw (pre-rounding) `qty`/`value` accumulator of `compute_on_hand`
for one product: the fold over the moves of that product. -/
def onHandRaw (product : String) (moves : List Move) : ℚ × ℚ :=
  (moves.filter (fun m => m.product = product)).foldl onHandStep (0, 0)

/-- The per-product summary row produced by `compute_on_hand`. -/
structure OnHand where
  qty : ℚ
  value : ℚ
  avg_cost : ℚ
deriving DecidableEq, Repr

/-- `compute_on_hand()[product]`: the summary for one product.  The Python
function returns a dict keyed by product; a product with no move corresponds
to the empty fold (all zeroes) here.  `avg = (value / qty) if qty else 0.0`,
then all three outputs are rounded to 2 decimal places. -/
def compute_on_hand (product : String) (moves : List Move) : OnHand :=
  let s := onHandRaw product moves
  ⟨round2 s.1, round2 s.2, round2 (if s.1 = 0 then 0 else s.2 / s.1)⟩

/-- The warehouse/location filter of `compute_on_hand_site`: a `none` filter
matches every move. -/
def siteMatch (warehouse location : Option String) (m : Move) : Bool :=
  (match warehouse with
   | some w => m.warehouse = w
   | none => true) &&
  (match location with
   | some l => m.location = l
   | none => true)

/-- `compute_on_hand_site(warehouse, location)[product]`: as `compute_on_hand`
but restricted to the moves matching the site filters. -/
def compute_on_hand_site (product : String) (warehouse location : Option String)
    (moves : List Move) : OnHand :=
  compute_on_hand product (moves.filter (siteMatch warehouse location))

/-- Whether `product` appears among the (site-filtered) moves, i.e. whether the
summary dict of the Python code has a key for it. -/
def hasProduct (product : String) (moves : List Move) : Bool :=
  moves.any (fun m => m.product = product)

/-- `get_avg_cost`: the site average cost when the product occurs at the site,
else the global average cost when it occurs at all, else `0.0`. -/
def get_avg_cost (product : String) (warehouse location : Option String)
    (moves : List Move) : ℚ :=
  if hasProduct product (moves.filter (siteMatch warehouse location)) then
    (compute_on_hand_site product warehouse location moves).avg_cost
  else if hasProduct product moves then
    (compute_on_hand product moves).avg_cost
  else 0

/-- `record_transfer`: records an `"out"` move at the source site and an
`"in"` move at the destination site, both with the source-site average cost
and the shared reference `"XFER-" ++ transfer_id` (the transfer id is a fresh
UUID in the source; it is a parameter here).  The `stock_transfers.json`
bookkeeping record carries no costing information and is omitted. -/
def record_transfer (moves : List Move) (product : String) (quantity : ℚ)
    (from_wh from_loc to_wh to_loc transfer_id : String) : List Move :=
  let avg_cost := get_avg_cost product (some from_wh) (some from_loc) moves
  let ref := "XFER-" ++ transfer_id
  let m1 := record_move moves product quantity avg_cost "out" ref from_wh from_loc
  record_move m1 product quantity avg_cost "in" ref to_wh to_loc

/-! ## Finance / general ledger (`backend/modules/finance.py`) -/

/-- A journal-entry line `{account_code, debit, credit, memo}`. -/
structure JLine where
  account_code : String
  debit : ℚ
  credit : ℚ
  memo : String
deriving DecidableEq, Repr

/-- A posted journal entry of `journal_entries.json`. -/
structure JEntry where
  date : String
  ref : String
  memo : String
  lines : List JLine
  posted_at : String
deriving DecidableEq, Repr

/-- `sum(float(l.get("debit", 0) or 0) for l in lines)`. -/
def total_debit (lines : List JLine) : ℚ := (lines.map (fun l => l.debit)).sum

/-- `sum(float(l.get("credit", 0) or 0) for l in lines)`. -/
def total_credit (lines : List JLine) : ℚ := (lines.map (fun l => l.credit)).sum

/-- `append_journal_entry`: validates `round(Σdebit,2) == round(Σcredit,2)`
before touching the stored journal; on failure it raises `ValueError` (modelled
by `.error`, with the journal state unchanged), on success it appends exactly
one entry stamped `posted_at = now`.  Returns (new journal state, outcome). -/
def append_journal_entry (journal : List JEntry) (date ref memo : String)
    (lines : List JLine) (now : String) : List JEntry × Except String JEntry :=
  if round2 (total_debit lines) ≠ round2 (total_credit lines) then
    (journal, Except.error "Journal entry is not balanced: debit != credit")
  else
    let entry : JEntry := ⟨date, ref, memo, lines, now⟩
    (journal ++ [entry], Except.ok entry)

/-- The three GL lines built by `post_invoice_to_gl` for a sales invoice:
`vat = round(subtotal*tax_rate, 2)`, `total = round(subtotal+vat, 2)`,
DR 1100 (AR) `total`, CR 4000 (Revenue) `subtotal`, CR 2100 (VAT) `vat`. -/
def invoice_gl_lines (subtotal tax_rate : ℚ) (customer : String) : List JLine :=
  let vat := round2 (subtotal * tax_rate)
  let total := round2 (subtotal + vat)
  [⟨"1100", total, 0, "AR " ++ customer⟩,
   ⟨"4000", 0, subtotal, "Sales revenue"⟩,
   ⟨"2100", 0, vat, "VAT payable"⟩]

/-- `post_invoice_to_gl(invoice)`: builds the three lines and appends them as
one journal entry with reference `INV-{id}`.  The invoice dict is passed as its
relevant fields; `date` is the invoice date (or today's date when absent). -/
def post_invoice_to_gl (journal : List JEntry) (subtotal tax_rate : ℚ)
    (customer invoice_id date now : String) : List JEntry × Except String JEntry :=
  append_journal_entry journal date ("INV-" ++ invoice_id)
    ("Invoice " ++ invoice_id ++ " for " ++ customer)
    (invoice_gl_lines subtotal tax_rate customer) now

/-! ## Employees (`backend/modules/employees.py`) -/

/-- `compute_eos_benefit(base_salary, hire_date, separation_date, reason)`.
Dates are the parsed day ordinals (`none` = unparsable, the `except` branch,
which returns `0.0`).  `yos = max(0, (end - start).days / 365)`; termination
pays 0.5 month per year for the first 5 years and 1 month per year after,
rounded to 2 dp; any other reason (resignation) pays nothing under 2 years,
1/3 of the termination amount under 5, 2/3 under 10, and the full amount from
10 years, each rounded to 2 dp. -/
def compute_eos_benefit (base_salary : ℚ) (hire separation : Option ℤ)
    (reason : String) : ℚ :=
  match hire, separation with
  | some start, some stop =>
    let yos : ℚ := max 0 (((stop - start : ℤ) : ℚ) / 365)
    let monthly := base_salary
    if reason = "termination" then
      if yos ≤ 0 then 0
      else round2 (min yos 5 * (1/2 * monthly) + max 0 (yos - 5) * (1 * monthly))
    else
      if yos < 2 then 0
      else
        let full_benefit := min yos 5 * (1/2 * monthly) + max 0 (yos - 5) * (1 * monthly)
        if yos < 5 then round2 (full_benefit * (1/3))
        else if yos < 10 then round2 (full_benefit * (2/3))
        else round2 full_benefit
  | _, _ => 0

/-! ## Accounting / AR aging (`backend/modules/accounting.py`) -/

/-- An open AR invoice as consumed by `aging_buckets`: customer, open amount
(`inv["open"]`), and parsed invoice date as a day ordinal (`none` =
unparsable). -/
structure OpenInvoice where
  customer : String
  open_amount : ℚ
  date : Option ℤ
deriving DecidableEq, Repr

/-- `due_date_from_invoice(inv, days=30)`: invoice date plus 30 days; an
unparsable date falls back to `utcnow()` (the `now` argument). -/
def due_date_from_invoice (now : ℤ) (inv : OpenInvoice) : ℤ :=
  (match inv.date with
   | some d => d
   | none => now) + 30

/-- The bucket-key selection of `aging_buckets`, transcribing the
`key = "current"` initialisation and the `if/elif` chain verbatim. -/
def bucketKey (days_over : ℤ) : String :=
  if 0 < days_over ∧ days_over ≤ 30 then "30"
  else if days_over ≤ 60 then "60"
  else if days_over ≤ 90 then "90"
  else if 90 < days_over then "120"
  else "current"

/-- One iteration of the `aging_buckets` loop: skip non-positive open amounts,
otherwise add the open amount to `buckets[customer][key]` (the dict of dicts is
modelled as a total function defaulting to the `setdefault` value `0.0`). -/
def agingStep (now : ℤ) (acc : String → String → ℚ) (inv : OpenInvoice) :
    String → String → ℚ :=
  if inv.open_amount ≤ 0 then acc
  else fun c k =>
    if c = inv.customer ∧ k = bucketKey (now - due_date_from_invoice now inv) then
      acc c k + inv.open_amount
    else acc c k

/-- `aging_buckets(open_invoices)[customer][key]`, with the final per-bucket
`round(. , 2)` applied. -/
def aging_buckets (now : ℤ) (invs : List OpenInvoice) (customer key : String) : ℚ :=
  round2 ((invs.foldl (agingStep now) (fun _ _ => 0)) customer key)

/-! ## Time / leave requests (`backend/modules/time.py`) -/

/-- One row of the static `LEAVE_TYPES` policy table. -/
structure LeaveType where
  code : String
  name : String
  max_days : ℤ
  paid : String
  note : String
deriving DecidableEq, Repr

/-- The in-code leave policy table (8 types). -/
def LEAVE_TYPES : List LeaveType :=
  [⟨"annual", "Annual", 30, "full", "21 days; 30 after 5 years of service"⟩,
   ⟨"sick", "Sick", 120, "mixed", "30 days full, next 60 at 75%, next 30 unpaid"⟩,
   ⟨"maternity", "Maternity", 70, "varies", "10 weeks; pay depends on service duration"⟩,
   ⟨"paternity", "Paternity", 3, "full", "3 days"⟩,
   ⟨"marriage", "Marriage", 5, "full", "5 days"⟩,
   ⟨"bereavement", "Bereavement", 5, "full", "5 days for close relatives"⟩,
   ⟨"hajj", "Hajj", 10, "varies", "Once after two years of service"⟩,
   ⟨"unpaid", "Unpaid", 365, "none", "Unpaid leave by agreement"⟩]

/-- `_find_leave_type(code)`: first policy row with that code. -/
def find_leave_type (code : String) : Option LeaveType :=
  LEAVE_TYPES.find? (fun t => t.code = code)

/-- The inclusive day count of `leave_create`:
`(end - start).days + 1` clamped to `≥ 0`, and `0` when either date fails to
parse (dates are parsed day ordinals, `none` = unparsable). -/
def leave_days (sd ed : Option ℤ) : ℤ :=
  match sd, ed with
  | some s, some e => max (e - s + 1) 0
  | _, _ => 0

/-- A persisted leave request (`time_leave.json`).  The sequential string id
and the verbatim start/end/reason strings are irrelevant to the claims and
omitted. -/
structure LeaveReq where
  emp_id : String
  type_code : String
  type_name : String
  days : ℤ
  status : String
  policy_max_days : ℤ
  exceeds_policy : Bool
deriving DecidableEq, Repr

/-- Outcome of `leave_create`: the post-state of the leave collection, the
request that was appended (if any), and whether the exceeds-policy reject
branch was taken.  In the source that branch attempts to re-render the form
but references the name `request`, which is not bound in `leave_create`
(unlike the sibling GET handlers it has no `request: Request` parameter), so
at runtime it raises `NameError`; either way nothing is appended. -/
structure LeaveCreateResult where
  items : List LeaveReq
  created : Option LeaveReq
  rejected : Bool
deriving DecidableEq, Repr

/-- `leave_create(emp_id, leave_type, start_date, end_date, reason)`:
computes the inclusive day count, looks the type up in `LEAVE_TYPES` with the
fallback `{"code": code, "name": code.title(), "max_days": days or 0, ...}`
for unknown codes, sets
`exceeds = bool(days and lt["max_days"] and days > lt["max_days"])`,
rejects when `exceeds` (appending nothing), else persists the request with
status `"pending"`.  The `.strip()`/`.title()` string normalisations of the
source are not modelled (inputs stand for their normalised values). -/
def leave_create (items : List LeaveReq) (emp_id leave_type : String)
    (sd ed : Option ℤ) : LeaveCreateResult :=
  let days := leave_days sd ed
  let lt := (find_leave_type leave_type).getD
    ⟨leave_type, leave_type, days, "", ""⟩
  let exceeds : Bool := decide (days ≠ 0 ∧ lt.max_days ≠ 0 ∧ days > lt.max_days)
  if exceeds then
    ⟨items, none, true⟩
  else
    let req : LeaveReq :=
      ⟨emp_id, lt.code, lt.name, days, "pending", lt.max_days, exceeds⟩
    ⟨items ++ [req], some req, false⟩

/-! ## Slitting (`backend/modules/slitting.py`) -/

/-- The error messages appended by `compute_custom_plan`, abstracted to their
kind and (for per-strip checks) the 1-based strip index; the interpolated
measurements of the f-strings are recoverable from the plan itself. -/
inductive PlanError where
  | knives : PlanError
  | totalExceeds : PlanError
  | minWidth (idx : ℕ) : PlanError
  | maxWidth (idx : ℕ) : PlanError
  | deviation (idx : ℕ) : PlanError
deriving DecidableEq, Repr

/-- The min/max strip-width boundary checks of `compute_custom_plan`, one pass
over `enumerate(final_widths, start=1)`; a zero (falsy) `min_width_mm` or
`max_width_mm` disables the corresponding check. -/
def minmaxErrors (min_width_mm max_width_mm tolerance_mm : ℚ) (final_widths : List ℚ) :
    List PlanError :=
  ((final_widths.enumFrom 1).map (fun p =>
    (if min_width_mm ≠ 0 ∧ p.2 < min_width_mm - tolerance_mm then
      [PlanError.minWidth p.1] else []) ++
    (if max_width_mm ≠ 0 ∧ p.2 > max_width_mm + tolerance_mm then
      [PlanError.maxWidth p.1] else []))).flatten

/-- The deviation check of `compute_custom_plan` over
`enumerate(zip(sane_widths, final_widths), start=1)`. -/
def deviationErrors (tolerance_mm : ℚ) (sane final_widths : List ℚ) : List PlanError :=
  (((sane.zip final_widths).enumFrom 1).map (fun p =>
    if |p.2.2 - p.2.1| > tolerance_mm then [PlanError.deviation p.1] else [])).flatten

/-- The outputs of `compute_custom_plan` relevant to the claims (presentation
fields — knife offsets, used/scrap width, yield percentage and the per-strip
deviation table — are omitted). -/
structure CustomPlan where
  strip_count : ℕ
  requested_widths : List ℚ
  strip_widths : List ℚ
  effective_width : ℚ
  scale_factor : ℚ
  feasible : Bool
  errors : List PlanError
deriving DecidableEq, Repr

/-- `compute_custom_plan`: sanitises the requested widths
(`[max(0.0, w) for w in widths if w > 0]`), computes the effective width
`max(0, base - left_trim - right_trim - kerf*(n-1))` with
`base = usable if usable > 0 else coil`, then either checks the total against
the effective width (`strict_targets`) or scales all widths by
`effective/total` when the total exceeds the (positive) effective width,
collecting errors in source order: knife count, strict-total, per-strip
min/max, per-strip deviation (the latter only when not strict and the scale
is not 1).  `feasible = len(errors) == 0`. -/
def compute_custom_plan (coil_width_mm usable_width_mm : ℚ) (widths : List ℚ)
    (kerf_mm left_trim_mm right_trim_mm : ℚ) (max_knives : ℕ)
    (min_width_mm max_width_mm tolerance_mm : ℚ) (strict_targets : Bool) :
    CustomPlan :=
  let sane_widths := (widths.filter (fun w => 0 < w)).map (fun w => max 0 w)
  let n := sane_widths.length
  let knife_errors : List PlanError :=
    if max_knives ≠ 0 ∧ n > max_knives then [PlanError.knives] else []
  let width_base := if 0 < usable_width_mm then usable_width_mm else coil_width_mm
  let kerf_total := kerf_mm * ((n : ℚ) - 1)
  let effective := max 0 (width_base - left_trim_mm - right_trim_mm - kerf_total)
  let total_req := sane_widths.sum
  let scale : ℚ :=
    if strict_targets then 1
    else if total_req > effective ∧ 0 < effective then effective / total_req
    else 1
  let final_widths := if strict_targets then sane_widths else sane_widths.map (· * scale)
  let strict_errors : List PlanError :=
    if strict_targets ∧ total_req > effective + tolerance_mm then
      [PlanError.totalExceeds] else []
  let dev_errors : List PlanError :=
    if strict_targets = false ∧ scale ≠ 1 then
      deviationErrors tolerance_mm sane_widths final_widths
    else []
  let errors := knife_errors ++ strict_errors ++
    minmaxErrors min_width_mm max_width_mm tolerance_mm final_widths ++ dev_errors
  { strip_count := n,
    requested_widths := sane_widths.map round3,
    strip_widths := final_widths.map round3,
    effective_width := round3 effective,
    scale_factor := round6 scale,
    feasible := decide (errors = []),
    errors := errors }

/-! ## ZATCA QR payload (`backend/modules/zatca.py`)

Byte strings are `List ℕ` with every element `< 256`; a Python `str` value is
represented by its UTF-8 byte list. -/

/-- `tlv(tag, value)`: `bytes([tag]) + bytes([len(vbytes)]) + vbytes`
(`bytes([n])` requires `0 ≤ n ≤ 255`, hence the length hypotheses on the
theorems). -/
def tlv (tag : ℕ) (value : List ℕ) : List ℕ := tag :: value.length :: value

/-- Decimal digits of `n` (ASCII bytes, most significant first), with `fuel`
bounding the recursion depth; empty for `n = 0`. -/
def decDigitsAux : ℕ → ℕ → List ℕ
  | 0, _ => []
  | fuel + 1, n => if n = 0 then [] else decDigitsAux fuel (n / 10) ++ [48 + n % 10]

/-- The decimal-digit bytes of a natural number (ASCII), as `str(n)` prints
it: `"0"` for zero, most significant digit first. -/
def decDigits (n : ℕ) : List ℕ :=
  if n = 0 then [48] else decDigitsAux n n

/-- `f"{x:.2f}"` idealised over `ℚ`: round to an integer number of cents, then
print sign, integer part, `'.'` (46) and exactly two digits. -/
def fmt2 (q : ℚ) : List ℕ :=
  let cents := round (q * 100)
  let a := cents.natAbs
  (if cents < 0 then [45] else []) ++
    decDigits (a / 100) ++ [46] ++ [48 + a % 100 / 10, 48 + a % 100 % 10]

/-- The base64 alphabet. -/
def b64chars : List Char :=
  "ABCDEFGHIJKLMNOPQRSTUVWXYZabcdefghijklmnopqrstuvwxyz0123456789+/".toList

/-- The base64 character of a 6-bit group. -/
def encodeChar (n : ℕ) : Char := b64chars.getD n 'A'

/-- Inverse of `encodeChar`: position in the alphabet. -/
def decodeChar (c : Char) : Option ℕ := b64chars.indexOf? c

/-- Standard base64 encoding (RFC 4648, with `'='` padding), as performed by
`base64.b64encode`; the output `str` is a list of characters. -/
def b64encode : List ℕ → List Char
  | [] => []
  | [a] => [encodeChar (a / 4), encodeChar (a % 4 * 16), '=', '=']
  | [a, b] => [encodeChar (a / 4), encodeChar (a % 4 * 16 + b / 16),
               encodeChar (b % 16 * 4), '=']
  | a :: b :: c :: rest =>
    [encodeChar (a / 4), encodeChar (a % 4 * 16 + b / 16),
     encodeChar (b % 16 * 4 + c / 64), encodeChar (c % 64)] ++ b64encode rest

/-- Standard base64 decoding: `none` on any malformed input. -/
def b64decode : List Char → Option (List ℕ)
  | [] => some []
  | c0 :: c1 :: c2 :: c3 :: rest =>
    match decodeChar c0, decodeChar c1 with
    | some v0, some v1 =>
      if c2 = '=' then
        if c3 = '=' ∧ rest = [] then some [v0 * 4 + v1 / 16] else none
      else
        match decodeChar c2 with
        | some v2 =>
          if c3 = '=' then
            if rest = [] then some [v0 * 4 + v1 / 16, v1 % 16 * 16 + v2 / 4]
            else none
          else
            match decodeChar c3, b64decode rest with
            | some v3, some tail =>
              some ([v0 * 4 + v1 / 16, v1 % 16 * 16 + v2 / 4, v2 % 4 * 64 + v3] ++ tail)
            | _, _ => none
        | none => none
    | _, _ => none
  | _ => none

/-- `zatca_qr_payload(seller_name, vat_number, timestamp_iso, total,
vat_total)`: the base64 encoding of the concatenation of the five TLV records
with tags 1..5, where tags 4 and 5 carry the two totals formatted to two
decimal places. -/
def zatca_qr_payload (seller_name vat_number timestamp_iso : List ℕ)
    (total vat_total : ℚ) : List Char :=
  b64encode (tlv 1 seller_name ++ tlv 2 vat_number ++ tlv 3 timestamp_iso ++
    tlv 4 (fmt2 total) ++ tlv 5 (fmt2 vat_total))

/-- A TLV stream parser: reads `[tag][length][length bytes]` records until the
input is exhausted; `none` when the advertised length overruns the input. -/
def parseTLV : List ℕ → Option (List (ℕ × List ℕ))
  | [] => some []
  | [_] => none
  | t :: l :: rest =>
    if rest.length < l then none
    else
      match parseTLV (rest.drop l) with
      | some tail => some ((t, rest.take l) :: tail)
      | none => none
termination_by bs => bs.length
decreasing_by
  simp only [List.length_drop, List.length_cons]
  omega

/-! ## Helper lemmas -/

/-- With both width bounds zero (falsy), the min/max checks never fire. -/
theorem minmaxErrors_zero (tol : ℚ) (fw : List ℚ) : minmaxErrors 0 0 tol fw = [] := by
  unfold minmaxErrors
  rw [List.flatten_eq_nil_iff]
  intro l hl
  simp only [List.mem_map] at hl
  obtain ⟨p, hp, rfl⟩ := hl
  simp

/-- The deviation check produces no error exactly when every strip is within
tolerance of its request. -/
theorem deviationErrors_eq_nil_iff (tol : ℚ) (xs ys : List ℚ) :
    deviationErrors tol xs ys = [] ↔ ∀ pr ∈ xs.zip ys, ¬(|pr.2 - pr.1| > tol) := by
  unfold deviationErrors
  rw [List.flatten_eq_nil_iff]
  constructor
  · intro h pr hpr hgt
    have hpr' : pr ∈ List.map Prod.snd ((xs.zip ys).enumFrom 1) := by
      rw [List.enumFrom_map_snd]
      exact hpr
    obtain ⟨p, hp, rfl⟩ := List.mem_map.mp hpr'
    have hnil := h _ (List.mem_map_of_mem _ hp)
    rw [if_pos hgt] at hnil
    exact List.cons_ne_nil _ _ hnil
  · intro h l hl
    obtain ⟨p, hp, rfl⟩ := List.mem_map.mp hl
    have hmem : p.2 ∈ xs.zip ys := by
      rw [← List.enumFrom_map_snd 1 (xs.zip ys)]
      exact List.mem_map_of_mem _ hp
    rw [if_neg (h p.2 hmem)]

/-- Every base64 alphabet position decodes back to itself. -/
theorem decodeChar_encodeChar : ∀ v : ℕ, v < 64 → decodeChar (encodeChar v) = some v := by
  decide

/-- No base64 alphabet character is the padding character. -/
theorem encodeChar_ne_eq : ∀ v : ℕ, v < 64 → ¬(encodeChar v = '=') := by
  decide

/-- Base64 round-trip: decoding an encoded byte list gives it back. -/
theorem b64_roundtrip : ∀ (bs : List ℕ), (∀ b ∈ bs, b < 256) →
    b64decode (b64encode bs) = some bs
  | [], _ => rfl
  | [a], hb => by
    have ha : a < 256 := hb a (by simp)
    have h0 := decodeChar_encodeChar (a / 4) (by omega)
    have h1 := decodeChar_encodeChar (a % 4 * 16) (by omega)
    show b64decode [encodeChar (a / 4), encodeChar (a % 4 * 16), '=', '='] = some [a]
    unfold b64decode
    simp only [h0, h1, if_pos rfl, and_self, ite_true, Option.some.injEq,
      List.cons.injEq, and_true]
    omega
  | [a, b], hb => by
    have ha : a < 256 := hb a (by simp)
    have hbb : b < 256 := hb b (by simp)
    have h0 := decodeChar_encodeChar (a / 4) (by omega)
    have h1 := decodeChar_encodeChar (a % 4 * 16 + b / 16) (by omega)
    have h2 := decodeChar_encodeChar (b % 16 * 4) (by omega)
    have hne2 : ¬(encodeChar (b % 16 * 4) = '=') := encodeChar_ne_eq _ (by omega)
    show b64decode [encodeChar (a / 4), encodeChar (a % 4 * 16 + b / 16),
      encodeChar (b % 16 * 4), '='] = some [a, b]
    unfold b64decode
    simp only [h0, h1, h2, if_neg hne2, if_pos rfl, ite_true, Option.some.injEq,
      List.cons.injEq, and_true]
    exact ⟨by omega, by omega⟩
  | a :: b :: c :: rest, hb => by
    have ha : a < 256 := hb a (by simp)
    have hbb : b < 256 := hb b (by simp)
    have hc : c < 256 := hb c (by simp)
    have ih := b64_roundtrip rest (fun x hx => hb x (by simp [hx]))
    have h0 := decodeChar_encodeChar (a / 4) (by omega)
    have h1 := decodeChar_encodeChar (a % 4 * 16 + b / 16) (by omega)
    have h2 := decodeChar_encodeChar (b % 16 * 4 + c / 64) (by omega)
    have h3 := decodeChar_encodeChar (c % 64) (by omega)
    have hne2 : ¬(encodeChar (b % 16 * 4 + c / 64) = '=') := encodeChar_ne_eq _ (by omega)
    have hne3 : ¬(encodeChar (c % 64) = '=') := encodeChar_ne_eq _ (by omega)
    show b64decode (encodeChar (a / 4) :: encodeChar (a % 4 * 16 + b / 16) ::
      encodeChar (b % 16 * 4 + c / 64) :: encodeChar (c % 64) :: b64encode rest) =
      some (a :: b :: c :: rest)
    unfold b64decode
    simp only [h0, h1, h2, h3, ih, if_neg hne2, if_neg hne3, Option.some.injEq,
      List.cons_append, List.nil_append, List.cons.injEq, and_true]
    exact ⟨by omega, by omega, by omega⟩

/-- Every byte emitted by `decDigitsAux` is an ASCII digit, so below 256. -/
theorem decDigitsAux_lt (fuel : ℕ) : ∀ (n : ℕ), ∀ b ∈ decDigitsAux fuel n, b < 256 := by
  induction fuel with
  | zero =>
    intro n b hb
    simp [decDigitsAux] at hb
  | succ f ih =>
    intro n b hb
    unfold decDigitsAux at hb
    split at hb
    · simp at hb
    · rcases List.mem_append.mp hb with h | h
      · exact ih _ b h
      · simp at h
        omega

/-- Every byte of `decDigits` is below 256. -/
theorem decDigits_lt (n : ℕ) : ∀ b ∈ decDigits n, b < 256 := by
  intro b hb
  unfold decDigits at hb
  split at hb
  · simp at hb
    omega
  · exact decDigitsAux_lt n n b hb

/-- Every byte of the 2-decimal formatting is below 256. -/
theorem fmt2_lt (q : ℚ) : ∀ b ∈ fmt2 q, b < 256 := by
  intro b hb
  unfold fmt2 at hb
  rcases List.mem_append.mp hb with h | h
  · rcases List.mem_append.mp h with h' | h'
    · rcases List.mem_append.mp h' with h'' | h''
      · split at h'' <;> simp at h''
        omega
      · exact decDigits_lt _ b h''
    · simp at h'
      omega
  · simp at h
    rcases h with rfl | rfl <;> omega

/-- Every byte of a TLV record is below 256 when tag, length and value are. -/
theorem tlv_lt (tag : ℕ) (v : List ℕ) (htag : tag < 256) (hlen : v.length ≤ 255)
    (hv : ∀ b ∈ v, b < 256) : ∀ b ∈ tlv tag v, b < 256 := by
  intro b hb
  unfold tlv at hb
  rcases List.mem_cons.mp hb with rfl | hb'
  · exact htag
  · rcases List.mem_cons.mp hb' with rfl | hb''
    · omega
    · exact hv b hb''

/-- Parsing a TLV record off the front of a stream yields its tag/value pair. -/
theorem parseTLV_append (t : ℕ) (v rest : List ℕ) (l : List (ℕ × List ℕ))
    (h : parseTLV rest = some l) :
    parseTLV (tlv t v ++ rest) = some ((t, v) :: l) := by
  show parseTLV (t :: v.length :: (v ++ rest)) = _
  rw [parseTLV]
  rw [if_neg (by simp)]
  rw [List.drop_left, List.take_left, h]

/-! ## Claim theorems -/

/-- C1: Moving-average costing invariant: folding `in`/`out` moves of a
product, each `in` move raises the running qty by its quantity and the running
value by quantity×unit_cost, each `out` move lowers them by the same amounts;
the reported `avg_cost` is `round(value/qty, 2)` when the raw qty is nonzero
and `0` otherwise, with `qty` and `value` rounded to 2 dp at read time; and
moves [in 10@2.00, in 10@4.00] give qty 20, value 60, avg 3.00, a further
out 5@3.00 gives qty 15, value 45, avg 3.00. -/
theorem c1_moving_average_costing :
    (∀ (moves : List Move) (p : String) (q c : ℚ) (ref wh loc : String),
      onHandRaw p (record_move moves p q c "in" ref wh loc) =
        ((onHandRaw p moves).1 + q, (onHandRaw p moves).2 + q * c)) ∧
    (∀ (moves : List Move) (p : String) (q c : ℚ) (ref wh loc : String),
      onHandRaw p (record_move moves p q c "out" ref wh loc) =
        ((onHandRaw p moves).1 - q, (onHandRaw p moves).2 - q * c)) ∧
    (∀ (moves : List Move) (p : String),
      (compute_on_hand p moves).qty = round2 (onHandRaw p moves).1 ∧
      (compute_on_hand p moves).value = round2 (onHandRaw p moves).2 ∧
      (compute_on_hand p moves).avg_cost =
        (if (onHandRaw p moves).1 = 0 then 0
         else round2 ((onHandRaw p moves).2 / (onHandRaw p moves).1))) ∧
    compute_on_hand "P"
      [⟨"P", 10, 2, "in", "R1", "Main", ""⟩,
       ⟨"P", 10, 4, "in", "R2", "Main", ""⟩] = ⟨20, 60, 3⟩ ∧
    compute_on_hand "P"
      [⟨"P", 10, 2, "in", "R1", "Main", ""⟩,
       ⟨"P", 10, 4, "in", "R2", "Main", ""⟩,
       ⟨"P", 5, 3, "out", "R3", "Main", ""⟩] = ⟨15, 45, 3⟩ := by
  refine ⟨?_, ?_, ?_, ?_, ?_⟩
  · intro moves p q c ref wh loc
    simp [record_move, onHandRaw, List.filter_append, List.foldl_append, onHandStep]
  · intro moves p q c ref wh loc
    simp [record_move, onHandRaw, List.filter_append, List.foldl_append, onHandStep]
  · intro moves p
    refine ⟨rfl, rfl, ?_⟩
    show round2 (if (onHandRaw p moves).1 = 0 then 0 else _) = _
    split
    · exact round2_zero
    · rfl
  · have hoi : (("out" : String) = "in") = False := by decide
    simp only [compute_on_hand, onHandRaw, onHandStep, List.filter, List.foldl, hoi]
    norm_num [round2, round_eq, OnHand.mk.injEq]
  · have hoi : (("out" : String) = "in") = False := by decide
    simp only [compute_on_hand, onHandRaw, onHandStep, List.filter, List.foldl, hoi]
    norm_num [round2, round_eq, OnHand.mk.injEq]

/-- C2: `append_journal_entry` succeeds iff `round(Σdebit,2) = round(Σcredit,2)`;
on success it appends exactly the one entry carrying the lines and the
`posted_at` timestamp, on failure it raises a validation error and leaves the
journal unchanged; lines 100/0 + 0/99.99 fail, lines 100/0 + 0/100 succeed. -/
theorem c2_append_journal_entry_balance :
    (∀ (journal : List JEntry) (date ref memo : String) (lines : List JLine)
        (now : String),
      ((∃ e, (append_journal_entry journal date ref memo lines now).2 = Except.ok e) ↔
        round2 (total_debit lines) = round2 (total_credit lines)) ∧
      append_journal_entry journal date ref memo lines now =
        (if round2 (total_debit lines) = round2 (total_credit lines) then
          (journal ++ [⟨date, ref, memo, lines, now⟩],
           Except.ok ⟨date, ref, memo, lines, now⟩)
         else
          (journal, Except.error "Journal entry is not balanced: debit != credit"))) ∧
    (∀ (journal : List JEntry) (date ref memo now : String),
      append_journal_entry journal date ref memo
        [⟨"1100", 100, 0, ""⟩, ⟨"4000", 0, 9999/100, ""⟩] now =
        (journal, Except.error "Journal entry is not balanced: debit != credit")) ∧
    (∀ (journal : List JEntry) (date ref memo now : String),
      append_journal_entry journal date ref memo
        [⟨"1100", 100, 0, ""⟩, ⟨"4000", 0, 100, ""⟩] now =
        (journal ++ [⟨date, ref, memo, [⟨"1100", 100, 0, ""⟩, ⟨"4000", 0, 100, ""⟩], now⟩],
         Except.ok ⟨date, ref, memo, [⟨"1100", 100, 0, ""⟩, ⟨"4000", 0, 100, ""⟩], now⟩)) := by
  have hmain : ∀ (journal : List JEntry) (date ref memo : String) (lines : List JLine)
      (now : String),
      append_journal_entry journal date ref memo lines now =
        (if round2 (total_debit lines) = round2 (total_credit lines) then
          (journal ++ [⟨date, ref, memo, lines, now⟩],
           Except.ok ⟨date, ref, memo, lines, now⟩)
         else
          (journal, Except.error "Journal entry is not balanced: debit != credit")) := by
    intro journal date ref memo lines now
    unfold append_journal_entry
    by_cases h : round2 (total_debit lines) = round2 (total_credit lines) <;>
      simp [h]
  refine ⟨fun journal date ref memo lines now => ⟨?_, hmain ..⟩, ?_, ?_⟩
  · rw [hmain]
    by_cases h : round2 (total_debit lines) = round2 (total_credit lines)
    · simp [h]
    · simp [h]
  · intro journal date ref memo now
    rw [hmain]
    rw [if_neg]
    simp only [total_debit, total_credit, List.map, List.sum_cons, List.sum_nil]
    norm_num [round2, round_eq]
  · intro journal date ref memo now
    rw [hmain]
    rw [if_pos]
    simp only [total_debit, total_credit, List.map, List.sum_cons, List.sum_nil]
    norm_num

/-- C3: `post_invoice_to_gl` posts, for any subtotal `s` and tax rate `r`, one
journal entry of exactly three lines — DR 1100 `round(s + round(s*r,2), 2)`,
CR 4000 `s`, CR 2100 `round(s*r,2)` — and the entry passes the 2-dp balance
validation; subtotal 1000 at rate 0.15 gives 1150.00 / 1000.00 / 150.00. -/
theorem c3_post_invoice_to_gl_recipe :
    (∀ (journal : List JEntry) (subtotal tax_rate : ℚ)
        (customer invoice_id date now : String),
      post_invoice_to_gl journal subtotal tax_rate customer invoice_id date now =
        (journal ++
          [⟨date, "INV-" ++ invoice_id, "Invoice " ++ invoice_id ++ " for " ++ customer,
            invoice_gl_lines subtotal tax_rate customer, now⟩],
         Except.ok
          ⟨date, "INV-" ++ invoice_id, "Invoice " ++ invoice_id ++ " for " ++ customer,
            invoice_gl_lines subtotal tax_rate customer, now⟩)) ∧
    (∀ (subtotal tax_rate : ℚ) (customer : String),
      invoice_gl_lines subtotal tax_rate customer =
        [⟨"1100", round2 (subtotal + round2 (subtotal * tax_rate)), 0, "AR " ++ customer⟩,
         ⟨"4000", 0, subtotal, "Sales revenue"⟩,
         ⟨"2100", 0, round2 (subtotal * tax_rate), "VAT payable"⟩]) ∧
    (∀ (subtotal tax_rate : ℚ) (customer : String),
      round2 (total_debit (invoice_gl_lines subtotal tax_rate customer)) =
        round2 (total_credit (invoice_gl_lines subtotal tax_rate customer))) ∧
    invoice_gl_lines 1000 (15/100) "Acme" =
      [⟨"1100", 1150, 0, "AR Acme"⟩, ⟨"4000", 0, 1000, "Sales revenue"⟩,
       ⟨"2100", 0, 150, "VAT payable"⟩] := by
  have hbal : ∀ (subtotal tax_rate : ℚ) (customer : String),
      round2 (total_debit (invoice_gl_lines subtotal tax_rate customer)) =
        round2 (total_credit (invoice_gl_lines subtotal tax_rate customer)) := by
    intro subtotal tax_rate customer
    simp only [invoice_gl_lines, total_debit, total_credit, List.map, List.sum_cons,
      List.sum_nil, add_zero, zero_add]
    exact round2_idem _
  refine ⟨?_, ?_, hbal, ?_⟩
  · intro journal subtotal tax_rate customer invoice_id date now
    unfold post_invoice_to_gl append_journal_entry
    rw [if_neg]
    rw [not_not]
    exact hbal subtotal tax_rate customer
  · intro subtotal tax_rate customer
    rfl
  · unfold invoice_gl_lines
    norm_num [round2, round_eq]
    decide

/-- C4: `compute_eos_benefit` pays, for `y = max(0, days/365)` years of
service, on termination `round(min(y,5)*0.5*m + max(0,y-5)*1.0*m, 2)` (`0`
when `y ≤ 0`); for any other reason `0` under 2 years, one third of the
termination amount under 5 years, two thirds under 10, the full amount from
10, each rounded to 2 dp; and `0` whenever either date is unparsable. -/
theorem c4_compute_eos_benefit_spec :
    (∀ (m : ℚ) (s e : ℤ) (reason : String),
      compute_eos_benefit m (some s) (some e) reason =
        (let y : ℚ := max 0 (((e - s : ℤ) : ℚ) / 365)
         let full := min y 5 * (1/2 * m) + max 0 (y - 5) * (1 * m)
         if reason = "termination" then (if y ≤ 0 then 0 else round2 full)
         else if y < 2 then 0
         else if y < 5 then round2 (full * (1/3))
         else if y < 10 then round2 (full * (2/3))
         else round2 full)) ∧
    (∀ (m : ℚ) (d : Option ℤ) (reason : String),
      compute_eos_benefit m none d reason = 0) ∧
    (∀ (m : ℚ) (d : Option ℤ) (reason : String),
      compute_eos_benefit m d none reason = 0) ∧
    compute_eos_benefit 3000 (some 0) (some 3650) "termination" = 22500 ∧
    compute_eos_benefit 3000 (some 0) (some 3650) "resignation" = 22500 ∧
    compute_eos_benefit 3000 (some 0) (some 1095) "termination" = 4500 ∧
    compute_eos_benefit 3000 (some 0) (some 1095) "resignation" = 1500 ∧
    compute_eos_benefit 3000 (some 0) (some 365) "resignation" = 0 ∧
    compute_eos_benefit 3000 none (some 3650) "termination" = 0 := by
  have heval : ∀ (m : ℚ) (s e : ℤ) (reason : String),
      compute_eos_benefit m (some s) (some e) reason =
        (let y : ℚ := max 0 (((e - s : ℤ) : ℚ) / 365)
         let full := min y 5 * (1/2 * m) + max 0 (y - 5) * (1 * m)
         if reason = "termination" then (if y ≤ 0 then 0 else round2 full)
         else if y < 2 then 0
         else if y < 5 then round2 (full * (1/3))
         else if y < 10 then round2 (full * (2/3))
         else round2 full) := by
    intro m s e reason
    simp only [compute_eos_benefit]
  refine ⟨heval, fun m d reason => ?_, fun m d reason => ?_, ?_, ?_, ?_, ?_, ?_, rfl⟩
  · rfl
  · cases d <;> rfl
  all_goals
    rw [heval]
    norm_num [round2, round_eq]
  all_goals decide

/-- C5 (bug evidence): an open invoice that is not yet due (`days_over ≤ 0`,
here an invoice dated `now`, due 30 days later, `days_over = -30`) is placed in
bucket `"60"` and not in `"current"`: the `elif days_over <= 60` arm of
`aging_buckets` catches every `days_over ≤ 0`, so the `key = "current"`
initialisation is unreachable.  The other bucket boundaries behave as the
claim states: due exactly 30 days ago → `"30"`, 31 days ago → `"60"`,
91 days ago → `"120"`. -/
theorem c5_aging_current_bucket_bug :
    aging_buckets 100 [⟨"A", 100, some 100⟩] "A" "current" = 0 ∧
    aging_buckets 100 [⟨"A", 100, some 100⟩] "A" "60" = 100 ∧
    aging_buckets 100 [⟨"B", 50, some 40⟩] "B" "30" = 50 ∧
    aging_buckets 100 [⟨"C", 50, some 39⟩] "C" "60" = 50 ∧
    aging_buckets 100 [⟨"D", 50, some (-21)⟩] "D" "120" = 50 := by
  have hb1 : bucketKey (100 - (100 + 30)) = "60" := by norm_num [bucketKey]
  have hb2 : bucketKey (100 - (40 + 30)) = "30" := by norm_num [bucketKey]
  have hb3 : bucketKey (100 - (39 + 30)) = "60" := by norm_num [bucketKey]
  have hb4 : bucketKey (100 - (-21 + 30)) = "120" := by norm_num [bucketKey]
  have hs : (("current" : String) = "60") = False := by decide
  refine ⟨?_, ?_, ?_, ?_, ?_⟩ <;>
    simp only [aging_buckets, List.foldl, agingStep, due_date_from_invoice,
      hb1, hb2, hb3, hb4] <;>
    norm_num [round2, round_eq, hs]

/-- Every row of the static policy table has a positive ceiling. -/
theorem leave_types_max_days_pos : ∀ t ∈ LEAVE_TYPES, (0:ℤ) < t.max_days := by
  decide

/-- C8 (bug evidence): a leave request over its type's ceiling reaches the
reject branch and nothing is appended (concretely: 10 days of `"paternity"`,
ceiling 3); in general a known-type request over the ceiling is rejected with
the collection unchanged, and one at or under the ceiling is persisted with
status `"pending"` and `exceeds_policy = false`.  (In the source the reject
branch then crashes with `NameError` instead of rendering the error page,
because `leave_create` has no `request` binding; the persistence claim —
nothing appended — is unaffected.) -/
theorem c8_leave_ceiling_rejection :
    leave_create [] "E1" "paternity" (some 0) (some 9) = ⟨[], none, true⟩ ∧
    (∀ (items : List LeaveReq) (emp code : String) (sd ed : Option ℤ)
        (lt : LeaveType),
      find_leave_type code = some lt →
      leave_days sd ed > lt.max_days →
      leave_create items emp code sd ed = ⟨items, none, true⟩) ∧
    (∀ (items : List LeaveReq) (emp code : String) (sd ed : Option ℤ)
        (lt : LeaveType),
      find_leave_type code = some lt →
      leave_days sd ed ≤ lt.max_days →
      leave_create items emp code sd ed =
        ⟨items ++
          [⟨emp, lt.code, lt.name, leave_days sd ed, "pending", lt.max_days, false⟩],
         some ⟨emp, lt.code, lt.name, leave_days sd ed, "pending", lt.max_days, false⟩,
         false⟩) := by
  refine ⟨by decide, ?_, ?_⟩
  · intro items emp code sd ed lt hfind hover
    have hmax : (0:ℤ) < lt.max_days :=
      leave_types_max_days_pos lt (List.mem_of_find?_eq_some hfind)
    have hexceeds : (leave_days sd ed ≠ 0 ∧ lt.max_days ≠ 0 ∧
        leave_days sd ed > lt.max_days) := by
      refine ⟨by omega, by omega, hover⟩
    unfold leave_create
    rw [hfind]
    simp only [Option.getD_some, decide_eq_true hexceeds, if_true]
  · intro items emp code sd ed lt hfind hunder
    have hexceeds : ¬(leave_days sd ed ≠ 0 ∧ lt.max_days ≠ 0 ∧
        leave_days sd ed > lt.max_days) := by
      intro h
      omega
    unfold leave_create
    rw [hfind]
    simp only [Option.getD_some, decide_eq_false hexceeds, Bool.false_eq_true,
      if_false]

/-- C10: a leave request whose type code is not in the policy table gets the
fallback policy whose `max_days` is the requested day count itself, so the
ceiling check never fires and the request is persisted with status
`"pending"` and `exceeds_policy = false`, whatever its length. -/
theorem c10_unknown_leave_type_bypasses_ceiling
    (items : List LeaveReq) (emp code : String) (sd ed : Option ℤ)
    (h : find_leave_type code = none) :
    leave_create items emp code sd ed =
      ⟨items ++
        [⟨emp, code, code, leave_days sd ed, "pending", leave_days sd ed, false⟩],
       some ⟨emp, code, code, leave_days sd ed, "pending", leave_days sd ed, false⟩,
       false⟩ := by
  have hexceeds : ¬(leave_days sd ed ≠ 0 ∧ leave_days sd ed ≠ 0 ∧
      leave_days sd ed > leave_days sd ed) := by
    intro h
    omega
  unfold leave_create
  rw [h]
  simp only [Option.getD_none, decide_eq_false hexceeds, Bool.false_eq_true, if_false]

/-- C10 witness: a 365-day request of the unknown type `"casual"` (far over
every real ceiling) is persisted as pending. -/
theorem c10_unknown_leave_type_witness :
    leave_create [] "E9" "casual" (some 0) (some 364) =
      ⟨[⟨"E9", "casual", "casual", 365, "pending", 365, false⟩],
       some ⟨"E9", "casual", "casual", 365, "pending", 365, false⟩, false⟩ := by
  have h := c10_unknown_leave_type_bypasses_ceiling [] "E9" "casual"
    (some 0) (some 364) (by decide)
  rw [h]
  norm_num [leave_days]

/-- C9: `record_transfer` appends exactly one `"out"` and one `"in"` move of
equal quantity and equal unit cost (the source-site average) under one shared
`XFER-` reference, so the global `compute_on_hand` summary of every product is
unchanged by a transfer. -/
theorem c9_stock_transfer_conserves_on_hand
    (moves : List Move) (p : String) (q : ℚ) (fw fl tw tl tid : String)
    (hq : 0 < q) :
    record_transfer moves p q fw fl tw tl tid =
      moves ++
        [⟨p, q, get_avg_cost p (some fw) (some fl) moves, "out", "XFER-" ++ tid, fw, fl⟩,
         ⟨p, q, get_avg_cost p (some fw) (some fl) moves, "in", "XFER-" ++ tid, tw, tl⟩] ∧
    (∀ p', compute_on_hand p' (record_transfer moves p q fw fl tw tl tid) =
      compute_on_hand p' moves) := by
  have hoi : (("out" : String) = "in") = False := by decide
  have hoo : (("out" : String) = "out") = True := by decide
  have hii : (("in" : String) = "in") = True := by decide
  have key : record_transfer moves p q fw fl tw tl tid =
      moves ++
        [⟨p, q, get_avg_cost p (some fw) (some fl) moves, "out", "XFER-" ++ tid, fw, fl⟩,
         ⟨p, q, get_avg_cost p (some fw) (some fl) moves, "in", "XFER-" ++ tid, tw, tl⟩] := by
    unfold record_transfer record_move
    simp [List.append_assoc]
  refine ⟨key, ?_⟩
  intro p'
  have hraw : onHandRaw p'
      (moves ++
        [⟨p, q, get_avg_cost p (some fw) (some fl) moves, "out", "XFER-" ++ tid, fw, fl⟩,
         ⟨p, q, get_avg_cost p (some fw) (some fl) moves, "in", "XFER-" ++ tid, tw, tl⟩]) =
      onHandRaw p' moves := by
    unfold onHandRaw
    rw [List.filter_append, List.foldl_append]
    by_cases hp : p = p'
    · subst hp
      simp only [List.filter_cons, List.filter_nil, decide_eq_true_eq, if_pos rfl,
        List.foldl_cons, List.foldl_nil, onHandStep, hoi, hii, hoo, if_true, if_false]
      obtain ⟨x, y⟩ := List.foldl onHandStep (0, 0)
        (List.filter (fun m => decide (m.product = p)) moves)
      simp only [Prod.mk.injEq]
      constructor <;> ring
    · have hd : decide (p = p') = false := by simp [hp]
      simp only [List.filter_cons, List.filter_nil, hd, Bool.false_eq_true,
        if_false, List.foldl_nil]
  rw [key]
  unfold compute_on_hand
  rw [hraw]

/-- C9 witness: transferring 5 units of `"COIL"` (on hand 10 @ 7.00 at `Main`)
from `Main` to `Annex` leaves the global summary unchanged. -/
theorem c9_stock_transfer_witness :
    compute_on_hand "COIL"
      (record_transfer [⟨"COIL", 10, 7, "in", "B1", "Main", ""⟩] "COIL" 5
        "Main" "" "Annex" "" "t1") =
      compute_on_hand "COIL" [⟨"COIL", 10, 7, "in", "B1", "Main", ""⟩] :=
  (c9_stock_transfer_conserves_on_hand [⟨"COIL", 10, 7, "in", "B1", "Main", ""⟩]
    "COIL" 5 "Main" "" "Annex" "" "t1" (by norm_num)).2 "COIL"

/-- C6 counterexample: with `max_knives = 1` the plan for requested widths
[400,400,400] against effective width 900 (tolerance 100) is scaled to
[300,300,300] — every strip within the 100 mm tolerance, so the claim, which
ties `feasible = false` exactly to a deviation beyond tolerance, requires a
feasible plan — yet the plan is infeasible, its single error being the
knife-count error. -/
theorem c6_scaling_infeasibility_counterexample :
    (compute_custom_plan 900 900 [400, 400, 400] 0 0 0 1 0 0 100 false).feasible
      = false ∧
    (compute_custom_plan 900 900 [400, 400, 400] 0 0 0 1 0 0 100 false).errors =
      [PlanError.knives] ∧
    (compute_custom_plan 900 900 [400, 400, 400] 0 0 0 1 0 0 100 false).strip_widths =
      [300, 300, 300] ∧
    (compute_custom_plan 900 900 [400, 400, 400] 0 0 0 1 0 0 100 false).scale_factor
      = 3/4 := by
  norm_num [compute_custom_plan, minmaxErrors, deviationErrors, round3, round6,
    round_eq, List.enumFrom, List.zip, List.zipWith, List.filter, abs]

/-- C6 (amended): in custom mode with `strict_targets` false, positive
requested widths, and the knife-count and min/max width checks passing (here:
`max_knives` zero or respected, both width bounds zero), every width is scaled
by `E/T` exactly when `T > E` and `E > 0` (scale 1 otherwise); when scaling
occurred the errors are exactly the per-offending-strip deviation errors and
the plan is infeasible iff some strip's |final − requested| exceeds the
tolerance; without scaling the plan is feasible. -/
theorem c6_custom_plan_proportional_scaling
    (coil usable : ℚ) (widths : List ℚ) (kerf ltr rtr tol : ℚ) (maxk : ℕ)
    (E T scale : ℚ)
    (hw : ∀ w ∈ widths, 0 < w)
    (hk : maxk = 0 ∨ widths.length ≤ maxk)
    (hE : E = max 0 ((if 0 < usable then usable else coil) - ltr - rtr -
      kerf * ((widths.length : ℚ) - 1)))
    (hT : T = widths.sum)
    (hscale : scale = if T > E ∧ 0 < E then E / T else 1) :
    (compute_custom_plan coil usable widths kerf ltr rtr maxk 0 0 tol false).strip_widths
      = widths.map (fun w => round3 (w * scale)) ∧
    (compute_custom_plan coil usable widths kerf ltr rtr maxk 0 0 tol false).scale_factor
      = round6 scale ∧
    (compute_custom_plan coil usable widths kerf ltr rtr maxk 0 0 tol false).errors
      = (if T > E ∧ 0 < E then
          deviationErrors tol widths (widths.map (fun w => w * scale)) else []) ∧
    (T > E ∧ 0 < E →
      ((compute_custom_plan coil usable widths kerf ltr rtr maxk 0 0 tol false).feasible
          = false ↔
        ∃ pr ∈ widths.zip (widths.map (fun w => w * scale)), |pr.2 - pr.1| > tol)) ∧
    (¬(T > E ∧ 0 < E) → scale = 1 ∧
      (compute_custom_plan coil usable widths kerf ltr rtr maxk 0 0 tol false).feasible
        = true) := by
  have hfil : widths.filter (fun w => decide (0 < w)) = widths :=
    List.filter_eq_self.mpr (fun a ha => by simpa using hw a ha)
  have hmap : ∀ l : List ℚ, (∀ w ∈ l, 0 < w) → l.map (fun w => max 0 w) = l := by
    intro l hl
    induction l with
    | nil => rfl
    | cons a t ih =>
      simp only [List.map_cons]
      rw [max_eq_right (le_of_lt (hl a (List.mem_cons_self a t))),
        ih (fun w hw' => hl w (List.mem_cons_of_mem a hw'))]
  have hmap' := hmap widths hw
  have hknife : ¬(maxk ≠ 0 ∧ widths.length > maxk) := by
    rcases hk with h0 | hle
    · intro hc
      exact hc.1 h0
    · intro hc
      omega
  have hs1 : (T > E ∧ 0 < E) → scale ≠ 1 := by
    intro hc
    rw [hscale, if_pos hc]
    have hT0 : 0 < T := lt_trans hc.2 hc.1
    exact ne_of_lt ((div_lt_one hT0).mpr hc.1)
  have hs2 : ¬(T > E ∧ 0 < E) → scale = 1 := by
    intro hc
    rw [hscale, if_neg hc]
  have hplan : compute_custom_plan coil usable widths kerf ltr rtr maxk 0 0 tol false =
      { strip_count := widths.length,
        requested_widths := widths.map round3,
        strip_widths := (widths.map (fun w => w * scale)).map round3,
        effective_width := round3 E,
        scale_factor := round6 scale,
        feasible := decide ((if T > E ∧ 0 < E then
          deviationErrors tol widths (widths.map (fun w => w * scale)) else []) = []),
        errors := (if T > E ∧ 0 < E then
          deviationErrors tol widths (widths.map (fun w => w * scale)) else []) } := by
    unfold compute_custom_plan
    simp only [hfil, hmap', hknife, if_false, Bool.false_eq_true, false_and,
      eq_self_iff_true, true_and, minmaxErrors_zero, List.nil_append,
      List.append_nil, ← hE, ← hT, ← hscale]
    by_cases hc : T > E ∧ 0 < E
    · simp only [if_pos hc, if_pos (hs1 hc)]
    · simp only [if_neg hc, hs2 hc, ne_eq, not_true_eq_false, if_false]
  rw [hplan]
  refine ⟨by simp [List.map_map, Function.comp], rfl, rfl, ?_, ?_⟩
  · intro hc
    simp only [if_pos hc]
    rw [show ∀ b : Bool, (b = false) = (¬(b = true)) from fun b => by simp]
    rw [decide_eq_true_iff]
    rw [deviationErrors_eq_nil_iff]
    push_neg
    constructor
    · rintro ⟨pr, hpr, hgt⟩
      exact ⟨pr, hpr, hgt⟩
    · rintro ⟨pr, hpr, hgt⟩
      exact ⟨pr, hpr, hgt⟩
  · intro hc
    refine ⟨hs2 hc, ?_⟩
    simp only [if_neg hc]
    decide

/-- C6 witness: requested [400,400,400] against effective width 900 scales to
[300,300,300] (factor 0.75, deviation 100 mm per strip); with tolerance 50 the
plan is infeasible, with tolerance 100 it is feasible. -/
theorem c6_custom_plan_scaling_witness :
    (compute_custom_plan 900 900 [400, 400, 400] 0 0 0 0 0 0 50 false).strip_widths
      = [300, 300, 300] ∧
    (compute_custom_plan 900 900 [400, 400, 400] 0 0 0 0 0 0 50 false).scale_factor
      = 3/4 ∧
    (compute_custom_plan 900 900 [400, 400, 400] 0 0 0 0 0 0 50 false).feasible
      = false ∧
    (compute_custom_plan 900 900 [400, 400, 400] 0 0 0 0 0 0 100 false).feasible
      = true := by
  have hcond : (1200:ℚ) > 900 ∧ (0:ℚ) < 900 := by norm_num
  have hzip : ([400, 400, 400] : List ℚ).zip
      (([400, 400, 400] : List ℚ).map (fun w => w * (3/4))) =
      [(400, 300), (400, 300), (400, 300)] := by
    norm_num [List.zip, List.zipWith]
  have h50 := c6_custom_plan_proportional_scaling 900 900 [400, 400, 400] 0 0 0 50 0
    900 1200 (3/4) (by norm_num) (Or.inl rfl) (by norm_num) (by norm_num) (by norm_num)
  have h100 := c6_custom_plan_proportional_scaling 900 900 [400, 400, 400] 0 0 0 100 0
    900 1200 (3/4) (by norm_num) (Or.inl rfl) (by norm_num) (by norm_num) (by norm_num)
  obtain ⟨hsw, hsf, -, hiff, -⟩ := h50
  obtain ⟨-, -, -, hiff100, -⟩ := h100
  refine ⟨?_, ?_, ?_, ?_⟩
  · rw [hsw]
    norm_num [round3, round_eq]
  · rw [hsf]
    norm_num [round6, round_eq]
  · refine (hiff hcond).mpr ⟨(400, 300), ?_, ?_⟩
    · rw [hzip]
      simp
    · norm_num [abs]
  · rcases Bool.eq_false_or_eq_true
      ((compute_custom_plan 900 900 [400, 400, 400] 0 0 0 0 0 0 100 false).feasible)
      with hf | hf
    · exact hf
    · obtain ⟨pr, hpr, hgt⟩ := (hiff100 hcond).mp hf
      rw [hzip] at hpr
      have hpr' : pr = (400, 300) := by
        simpa using hpr
      rw [hpr'] at hgt
      norm_num [abs] at hgt

/-- C7: ZATCA TLV round-trip: for values whose byte encodings fit in one
length byte, the base64 payload decodes to exactly the concatenation of the
five `[tag][length][value]` records with tags 1..5 (tag 4 the total, tag 5 the
VAT total, both formatted to 2 decimals), and parsing that byte stream
reconstructs exactly the five tag/value pairs. -/
theorem c7_zatca_tlv_roundtrip
    (seller vat ts : List ℕ) (total vat_total : ℚ)
    (hs : seller.length ≤ 255) (hv : vat.length ≤ 255) (ht : ts.length ≤ 255)
    (hsb : ∀ b ∈ seller, b < 256) (hvb : ∀ b ∈ vat, b < 256)
    (htb : ∀ b ∈ ts, b < 256)
    (hft : (fmt2 total).length ≤ 255) (hfv : (fmt2 vat_total).length ≤ 255) :
    b64decode (zatca_qr_payload seller vat ts total vat_total) =
      some (tlv 1 seller ++ tlv 2 vat ++ tlv 3 ts ++ tlv 4 (fmt2 total) ++
        tlv 5 (fmt2 vat_total)) ∧
    parseTLV (tlv 1 seller ++ tlv 2 vat ++ tlv 3 ts ++ tlv 4 (fmt2 total) ++
        tlv 5 (fmt2 vat_total)) =
      some [(1, seller), (2, vat), (3, ts), (4, fmt2 total), (5, fmt2 vat_total)] := by
  constructor
  · unfold zatca_qr_payload
    apply b64_roundtrip
    intro b hb
    rcases List.mem_append.mp hb with h | h
    · rcases List.mem_append.mp h with h' | h'
      · rcases List.mem_append.mp h' with h'' | h''
        · rcases List.mem_append.mp h'' with h3 | h3
          · exact tlv_lt 1 seller (by norm_num) hs hsb b h3
          · exact tlv_lt 2 vat (by norm_num) hv hvb b h3
        · exact tlv_lt 3 ts (by norm_num) ht htb b h''
      · exact tlv_lt 4 (fmt2 total) (by norm_num) hft (fmt2_lt total) b h'
    · exact tlv_lt 5 (fmt2 vat_total) (by norm_num) hfv (fmt2_lt vat_total) b h
  · have p5 : parseTLV (tlv 5 (fmt2 vat_total)) = some [(5, fmt2 vat_total)] := by
      have h := parseTLV_append 5 (fmt2 vat_total) [] [] (by rw [parseTLV])
      rw [List.append_nil] at h
      exact h
    have hassoc : tlv 1 seller ++ tlv 2 vat ++ tlv 3 ts ++ tlv 4 (fmt2 total) ++
        tlv 5 (fmt2 vat_total) =
        tlv 1 seller ++ (tlv 2 vat ++ (tlv 3 ts ++ (tlv 4 (fmt2 total) ++
          tlv 5 (fmt2 vat_total)))) := by
      simp [List.append_assoc]
    rw [hassoc]
    exact parseTLV_append 1 seller _ _ (parseTLV_append 2 vat _ _
      (parseTLV_append 3 ts _ _ (parseTLV_append 4 (fmt2 total) _ _ p5)))

/-- C7 witness: the golden test of the spec — seller "Test Co", VAT number
"300000000000003", timestamp "2024-01-01T00:00:00Z" (as UTF-8 byte lists),
total 115, VAT total 15 — decodes and parses back to the five records. -/
theorem c7_zatca_tlv_roundtrip_witness :
    fmt2 115 = [49, 49, 53, 46, 48, 48] ∧
    fmt2 15 = [49, 53, 46, 48, 48] ∧
    b64decode (zatca_qr_payload [84, 101, 115, 116, 32, 67, 111]
        [51, 48, 48, 48, 48, 48, 48, 48, 48, 48, 48, 48, 48, 48, 51]
        [50, 48, 50, 52, 45, 48, 49, 45, 48, 49, 84, 48, 48, 58, 48, 48, 58, 48, 48, 90]
        115 15) =
      some (tlv 1 [84, 101, 115, 116, 32, 67, 111] ++
        tlv 2 [51, 48, 48, 48, 48, 48, 48, 48, 48, 48, 48, 48, 48, 48, 51] ++
        tlv 3 [50, 48, 50, 52, 45, 48, 49, 45, 48, 49, 84, 48, 48, 58, 48, 48, 58, 48, 48, 90] ++
        tlv 4 [49, 49, 53, 46, 48, 48] ++ tlv 5 [49, 53, 46, 48, 48]) ∧
    parseTLV (tlv 1 [84, 101, 115, 116, 32, 67, 111] ++
        tlv 2 [51, 48, 48, 48, 48, 48, 48, 48, 48, 48, 48, 48, 48, 48, 51] ++
        tlv 3 [50, 48, 50, 52, 45, 48, 49, 45, 48, 49, 84, 48, 48, 58, 48, 48, 58, 48, 48, 90] ++
        tlv 4 [49, 49, 53, 46, 48, 48] ++ tlv 5 [49, 53, 46, 48, 48]) =
      some [(1, [84, 101, 115, 116, 32, 67, 111]),
        (2, [51, 48, 48, 48, 48, 48, 48, 48, 48, 48, 48, 48, 48, 48, 51]),
        (3, [50, 48, 50, 52, 45, 48, 49, 45, 48, 49, 84, 48, 48, 58, 48, 48, 58, 48, 48, 90]),
        (4, [49, 49, 53, 46, 48, 48]), (5, [49, 53, 46, 48, 48])] := by
  have hr115 : round ((115:ℚ) * 100) = 11500 := by norm_num [round_eq]
  have hr15 : round ((15:ℚ) * 100) = 1500 := by norm_num [round_eq]
  have hf115 : fmt2 115 = [49, 49, 53, 46, 48, 48] := by
    simp only [fmt2, hr115]
    decide
  have hf15 : fmt2 15 = [49, 53, 46, 48, 48] := by
    simp only [fmt2, hr15]
    decide
  have h := c7_zatca_tlv_roundtrip [84, 101, 115, 116, 32, 67, 111]
    [51, 48, 48, 48, 48, 48, 48, 48, 48, 48, 48, 48, 48, 48, 51]
    [50, 48, 50, 52, 45, 48, 49, 45, 48, 49, 84, 48, 48, 58, 48, 48, 58, 48, 48, 90]
    115 15 (by decide) (by decide) (by decide) (by decide) (by decide) (by decide)
    (by rw [hf115]; decide) (by rw [hf15]; decide)
  rw [hf115, hf15] at h
  exact ⟨hf115, hf15, h.1, h.2⟩

end ERP
